import Mathlib

/-!
# Verification of the invoicing preliminary pipeline

This development embeds the core data model and operations of the
`process_report` invoicing pipeline and proves properties of its
billability determination, nonbillable-rules resolution, and
allocation-directory enrichment stages.

Conventions of the embedding:
* A pandas `DataFrame` becomes a `List` of records; a nullable column is an
  `Option` field (pandas `NaN`/`None` is `none`).
* Invoice months are `YYYY-MM` strings compared lexicographically by code
  point (`strLe` below), exactly as Python compares `str` values.
* Python `dict` construction with overwriting keys is modelled by an
  association list inserted with last-key-wins semantics.
* A Python `KeyError` aborting a function is modelled by `Option`
  (`none` = the error); a raised `ValueError` carrying a payload is
  modelled by `Except`.
-/

/-- Lexicographic code-point comparison of strings; this is how Python
compares `str` values (`a <= b`), used by the resolver on `YYYY-MM` months
and by `list.sort` on project names. -/
def strLe (a b : String) : Bool :=
  go a.data b.data
where
  go : List Char → List Char → Bool
    | [], _ => true
    | _ :: _, [] => false
    | a :: as, b :: bs =>
      if a.toNat < b.toNat then true
      else if a.toNat == b.toNat then go as bs
      else false

/-- ASCII lowercasing of a string, the embedding of Python `str.lower` /
pandas `.str.lower()` (all names in this pipeline are ASCII). -/
def strLower (s : String) : String :=
  ⟨s.data.map Char.toLower⟩

/-- Stable insertion of a string into an ascending sorted list; folding it
over a list embeds Python `list.sort()` on strings. -/
def insertSorted (x : String) : List String → List String
  | [] => [x]
  | y :: ys => if strLe x y then x :: y :: ys else y :: insertSorted x ys

/-- Ascending sort of a list of strings (Python `list.sort()`). -/
def sortStrings (l : List String) : List String :=
  l.foldr insertSorted []

/-- Truthiness of an optional string in Python: `obj.get(key)` is truthy
exactly when the key is present with a non-empty value. -/
def truthy : Option String → Bool
  | none => false
  | some s => !s.isEmpty

/-- Sequential processing of a list by a fallible step, aborting at the
first error: the embedding of a Python `for` loop whose body may raise. -/
def mapOpt (f : α → Option β) : List α → Option (List β)
  | [] => some []
  | x :: xs =>
    match f x, mapOpt f xs with
    | some y, some ys => some (y :: ys)
    | _, _ => none

/-! ## Nonbillable-rules resolver (`Loader.get_nonbillable_projects`) -/

/-- One element of an entry's `clusters` list in the nonbillable-projects
rules file: `{name, start?, end?}`.  The `end` key is called `stop` here
because `end` is a Lean keyword. -/
structure ClusterEntry where
  name : String
  start : Option String
  stop : Option String
deriving DecidableEq, Repr

/-- One entry of the nonbillable-projects rules file:
`{name, clusters?, start?, end?}`.  An absent `clusters` key and an empty
list are identified, since Python tests the list with truthiness
(`if cluster_list:`). -/
structure RuleEntry where
  name : String
  clusters : List ClusterEntry
  start : Option String
  stop : Option String
deriving DecidableEq, Repr

/-- One row of the resolved nonbillable-projects table, with columns
`Project Name`, `Cluster` (None meaning all clusters) and `Is Timed`. -/
structure NonbillableProject where
  projectName : String
  cluster : Option String
  isTimed : Bool
deriving DecidableEq, Repr

/-- The inner `_is_in_time_range` check, called only when the `start` key is
present: `timed_object["start"] <= month and month <= timed_object["end"]`.
Python's `and` short-circuits, so the unguarded `["end"]` lookup is reached
only when `start <= month`; a reached lookup on a missing `end` raises
`KeyError`, modelled as `none`. -/
def isInTimeRange (month : String) (startS : String) (stopS : Option String) :
    Option Bool :=
  if strLe startS month then stopS.map (fun e => strLe month e) else some false

/-- Per-cluster emission in the branch for entries without a top-level time
range: a cluster with a (truthy) `start` emits a timed tuple only when the
month is in its range; a cluster without one emits an untimed tuple
unconditionally. -/
def resolveCluster (month : String) (pname : String) (c : ClusterEntry) :
    Option (List NonbillableProject) :=
  if truthy c.start then
    match isInTimeRange month (c.start.getD "") c.stop with
    | none => none
    | some true => some [⟨pname, some c.name, true⟩]
    | some false => some []
  else
    some [⟨pname, some c.name, false⟩]

/-- Per-entry emission of `Loader.get_nonbillable_projects`: an entry with a
(truthy) top-level `start` is skipped unless the month is in its range and
then emits timed tuples; an entry without one but with clusters defers to
`resolveCluster`; an entry with neither emits one untimed cluster-agnostic
tuple. -/
def resolveEntry (month : String) (e : RuleEntry) :
    Option (List NonbillableProject) :=
  if truthy e.start then
    match isInTimeRange month (e.start.getD "") e.stop with
    | none => none
    | some false => some []
    | some true =>
      if !e.clusters.isEmpty then
        some (e.clusters.map (fun c => ⟨e.name, some c.name, true⟩))
      else
        some [⟨e.name, none, true⟩]
  else if !e.clusters.isEmpty then
    (mapOpt (resolveCluster month e.name) e.clusters).map List.flatten
  else
    some [⟨e.name, none, false⟩]

/-- The whole of `Loader.get_nonbillable_projects`: resolve every entry of the
rules file against the invoice month; any `KeyError` aborts the call. -/
def getNonbillableProjects (month : String) (rules : List RuleEntry) :
    Option (List NonbillableProject) :=
  (mapOpt (resolveEntry month) rules).map List.flatten

/-- `Loader.get_nonbillable_timed_projects`: the `(project, cluster)` pairs of
the time-limited rows of the resolved table. -/
def getNonbillableTimedProjects (month : String) (rules : List RuleEntry) :
    Option (List (String × Option String)) :=
  (getNonbillableProjects month rules).map
    (fun l => (l.filter (fun r => r.isTimed)).map (fun r => (r.projectName, r.cluster)))

/-- A `start`/`end` field pair is well formed when a present `start` is a
non-empty string accompanied by an `end`; under this precondition Python's
truthiness test for `start` coincides with key presence and the `end` lookup
cannot raise. -/
def timedFieldsWF (startS stopS : Option String) : Bool :=
  match startS with
  | none => true
  | some s => !s.isEmpty && stopS.isSome

/-- Well-formedness of a whole rules-file entry (its own time fields and
those of its clusters). -/
def entryWF (e : RuleEntry) : Bool :=
  timedFieldsWF e.start e.stop && e.clusters.all (fun c => timedFieldsWF c.start c.stop)

/-- The three-branch reference policy of the specification (§4.1), written
from the spec's words: an entry with a top-level time range is skipped
entirely unless the month lies in `[start, end]` inclusive and then emits
timed tuples (one per cluster, or one cluster-agnostic one); an entry
without a top-level range but with clusters emits per cluster — timed and
range-guarded when the cluster carries a range, untimed and unconditional
when it does not; an entry with neither emits one cluster-agnostic untimed
tuple.  This definition is the per-cluster part. -/
def specResolveCluster (month pname : String) (c : ClusterEntry) :
    List NonbillableProject :=
  match c.start, c.stop with
  | some s, some t =>
    if strLe s month && strLe month t then [⟨pname, some c.name, true⟩] else []
  | _, _ => [⟨pname, some c.name, false⟩]

/-- The three-branch reference policy of the specification (§4.1) applied to
one entry (see `specResolveCluster` for the per-cluster part). -/
def specResolveEntry (month : String) (e : RuleEntry) : List NonbillableProject :=
  match e.start, e.stop with
  | some s, some t =>
    if strLe s month && strLe month t then
      if e.clusters.isEmpty then [⟨e.name, none, true⟩]
      else e.clusters.map (fun c => ⟨e.name, some c.name, true⟩)
    else []
  | _, _ =>
    if !e.clusters.isEmpty then
      (e.clusters.map (specResolveCluster month e.name)).flatten
    else
      [⟨e.name, none, false⟩]

/-- The reference policy applied to a whole rules file. -/
def specResolve (month : String) (rules : List RuleEntry) : List NonbillableProject :=
  (rules.map (specResolveEntry month)).flatten

/-! Sanity checks of the resolver embedding against the repository's own
`TestTimedProjects` fixture (five entries, month `2023-09`). -/

/-- The `ProjectA` entry of the repository's test fixture. -/
def entryProjectA : RuleEntry :=
  ⟨"ProjectA", [⟨"Cluster1", none, none⟩, ⟨"Cluster2", none, none⟩], none, none⟩

/-- The `ProjectB` entry of the repository's test fixture. -/
def entryProjectB : RuleEntry :=
  ⟨"ProjectB", [⟨"Cluster1", some "2023-01", some "2023-12"⟩], none, none⟩

/-- The `ProjectC` entry of the repository's test fixture. -/
def entryProjectC : RuleEntry :=
  ⟨"ProjectC", [], some "2023-06", some "2023-07"⟩

/-- The `ProjectD` entry of the repository's test fixture. -/
def entryProjectD : RuleEntry :=
  ⟨"ProjectD",
    [⟨"Cluster1", some "2023-05", some "2023-09"⟩,
     ⟨"Cluster2", some "2023-05", some "2023-11"⟩], none, none⟩

/-- The `ProjectE` entry of the repository's test fixture. -/
def entryProjectE : RuleEntry :=
  ⟨"ProjectE", [], none, none⟩

example :
    getNonbillableTimedProjects "2023-09"
      [entryProjectA, entryProjectB, entryProjectC, entryProjectD, entryProjectE] =
    some [("ProjectB", some "Cluster1"), ("ProjectD", some "Cluster1"),
          ("ProjectD", some "Cluster2")] := by
  decide

example :
    getNonbillableProjects "2023-09"
      [entryProjectA, entryProjectB, entryProjectC, entryProjectD, entryProjectE] =
    some [⟨"ProjectA", some "Cluster1", false⟩, ⟨"ProjectA", some "Cluster2", false⟩,
          ⟨"ProjectB", some "Cluster1", true⟩,
          ⟨"ProjectD", some "Cluster1", true⟩, ⟨"ProjectD", some "Cluster2", true⟩,
          ⟨"ProjectE", none, false⟩] := by
  decide

/-! ## The tabular dataset -/

/-- One usage record of the tabular dataset.  String columns that the
pipeline may leave null (`Manager (PI)`, `Institution - Specific Code`,
`SU Type`) are `Option`; `Cost` is an exact decimal held in cents.  The
fields from `suCharge` on are the derived columns written by the
preliminary stages. -/
structure Row where
  projectName : String
  projectId : String
  piName : Option String
  clusterName : String
  institutionCode : Option String
  cost : Int
  rate : String
  suType : Option String
  suCount : Int
  suCharge : Int
  isBillable : Bool
  missingPi : Bool
  credit : Int
  subsidy : Int
  prepaid : Int
deriving DecidableEq, Repr

/-- A row with every column empty, used to build concrete test datasets. -/
def baseRow : Row :=
  ⟨"", "", none, "", none, 0, "", none, 0, 0, false, false, 0, 0, 0⟩

/-! ## Billability determination (`validate_billable_pi_processor`) -/

/-- The fixed nonbillable-cluster list `NONBILLABLE_CLUSTERS`. -/
def NONBILLABLE_CLUSTERS : List String :=
  ["ocp-test", "barcelona"]

/-- Membership of the row's lowercased project name in
`cluster_agnostic_projects`, the lowercased names of rules whose `Cluster`
column is null. -/
def clusterAgnosticNonbillable (nb : List NonbillableProject) (row : Row) : Bool :=
  nb.any (fun r => r.cluster.isNone && strLower r.projectName == strLower row.projectName)

/-- The left-merge-with-indicator match of `find_billable_projects`: the
indicator reads `both` exactly when some rule row joins the data row on the
key (lowercased project name, cluster name); a null rule cluster never joins
a (non-null) data cluster. -/
def clusterSpecificNonbillable (nb : List NonbillableProject) (row : Row) : Bool :=
  nb.any (fun r =>
    strLower r.projectName == strLower row.projectName && r.cluster == some row.clusterName)

/-- `find_billable_projects`, per row: the conjunction of the three negated
masks (cluster-agnostic match, cluster-specific merge match, nonbillable
cluster membership). -/
def findBillableProject (nb : List NonbillableProject) (row : Row) : Bool :=
  !clusterAgnosticNonbillable nb row && !clusterSpecificNonbillable nb row &&
    !NONBILLABLE_CLUSTERS.contains row.clusterName

/-- The PI mask `data[PI_FIELD].isin(nonbillable_pis)`: a null PI is never
`isin` a list of strings. -/
def isNonbillablePi (nbPis : List String) (pi : Option String) : Bool :=
  match pi with
  | some p => nbPis.contains p
  | none => false

/-- `ValidateBillablePIsProcessor._get_billables`, per row. -/
def getBillables (nbPis : List String) (nb : List NonbillableProject) (row : Row) : Bool :=
  !isNonbillablePi nbPis row.piName && findBillableProject nb row

/-- The per-row effect of `ValidateBillablePIsProcessor._process`: the
`Is Billable` column from `_get_billables` and the `Missing PI` column from
`pandas.isna(data[PI_FIELD])`. -/
def billableRow (nbPis : List String) (nb : List NonbillableProject)
    (row : Row) : Row :=
  { row with
    isBillable := getBillables nbPis nb row
    missingPi := row.piName.isNone }

/-- `ValidateBillablePIsProcessor._process`: writes the `Is Billable` and
`Missing PI` columns on every row. -/
def validateBillableProcess (nbPis : List String) (nb : List NonbillableProject)
    (data : List Row) : List Row :=
  data.map (billableRow nbPis nb)

/-! ## Allocation-directory enrichment (`coldfront_fetch_processor`) -/

/-- One record of the Coldfront directory response, keeping only the keys
the stage reads; a `none` field stands for a missing key (for `pi`, a
missing `project` or `pi` key). -/
structure AllocationEntry where
  projectId : Option String
  projectName : Option String
  pi : Option String
  institutionCode : Option String
  resourceName : Option String
deriving DecidableEq, Repr

/-- The value stored per (project ID, cluster name) key: project name, PI
name and institution code. -/
structure AllocationInfo where
  projectName : String
  pi : String
  institutionCode : String
deriving DecidableEq, Repr

/-- `CLUSTER_NAME_MAP.get(cluster_name, cluster_name)`: the static
cluster-alias table of `ValidateClusterNameProcessor` (that processor's
module is outside the sources at hand, so the table is a parameter here). -/
def clusterNameMap (m : List (String × String)) (c : String) : String :=
  (m.lookup c).getD c

/-- The body of the `try` block of `_get_allocation_data` for one record: a
missing project ID, project name, PI or resource name raises `KeyError`
(the record is skipped); a missing Institution-Specific Code defaults to
the literal `"N/A"`. -/
def parseAllocation (m : List (String × String)) (e : AllocationEntry) :
    Option ((String × String) × AllocationInfo) :=
  match e.projectId, e.projectName, e.pi, e.resourceName with
  | some pid, some pname, some piv, some res =>
    some ((pid, clusterNameMap m res), ⟨pname, piv, e.institutionCode.getD "N/A"⟩)
  | _, _, _, _ => none

/-- Python-dict insertion `allocation_data[key] = value`: replace the value
in place if the key exists, else append. -/
def insertAlloc (d : List ((String × String) × AllocationInfo))
    (kv : (String × String) × AllocationInfo) :
    List ((String × String) × AllocationInfo) :=
  if d.any (fun p => p.1 == kv.1) then
    d.map (fun p => if p.1 == kv.1 then (p.1, kv.2) else p)
  else
    d ++ [kv]

/-- `ColdfrontFetchProcessor._get_allocation_data`: the mapping of
(project ID, normalized cluster name) keys to project name / PI /
institution code, built record by record. -/
def getAllocationData (m : List (String × String)) (api : List AllocationEntry) :
    List ((String × String) × AllocationInfo) :=
  api.foldl
    (fun d e =>
      match parseAllocation m e with
      | some kv => insertAlloc d kv
      | none => d)
    []

/-- The column overwrite performed on the rows matched by one allocation
item: project name, PI and institution code are all replaced. -/
def overwriteRow (info : AllocationInfo) (row : Row) : Row :=
  { row with
    projectName := info.projectName
    piName := some info.pi
    institutionCode := some info.institutionCode }

/-- The effect of one allocation item on one row: overwrite the row when its
(project ID, cluster name) pair equals the item's key. -/
def applyStep (kv : (String × String) × AllocationInfo) (row : Row) : Row :=
  if row.projectId == kv.1.1 && row.clusterName == kv.1.2 then
    overwriteRow kv.2 row
  else row

/-- `ColdfrontFetchProcessor._apply_allocation_data`: for each allocation
item in turn, overwrite every row whose (project ID, cluster name) equals
the item's key. -/
def applyAllocationData (alloc : List ((String × String) × AllocationInfo))
    (data : List Row) : List Row :=
  alloc.foldl (fun d kv => d.map (applyStep kv)) data

/-- `pandas.Series.unique().tolist()`: first occurrences, in order. -/
def uniqueStrings (l : List String) : List String :=
  l.foldl (fun acc n => if acc.contains n then acc else acc ++ [n]) []

/-- `ColdfrontFetchProcessor._get_project_name_list`: the distinct
`Project - Allocation` values of the rows that `find_billable_projects`
marks billable. -/
def getProjectNameList (nb : List NonbillableProject) (data : List Row) :
    List String :=
  uniqueStrings ((data.filter (fun r => findBillableProject nb r)).map (fun r => r.projectName))

/-- `ColdfrontFetchProcessor._validate_allocation_data`: the billable project
names not among the allocation values' project names, as a sorted list; a
non-empty list raises `ValueError` carrying that list. -/
def validateAllocationData (nb : List NonbillableProject)
    (alloc : List ((String × String) × AllocationInfo)) (data : List Row) :
    Except (List String) Unit :=
  let allocNames := alloc.map (fun kv => kv.2.projectName)
  let missing := sortStrings ((getProjectNameList nb data).filter (fun n => !allocNames.contains n))
  if missing.isEmpty then .ok () else .error missing

/-- `ColdfrontFetchProcessor._process` (with the directory response already
fetched): build the allocation mapping, apply it to the dataset, then
validate; validation failure aborts the stage. -/
def coldfrontProcess (m : List (String × String)) (nb : List NonbillableProject)
    (api : List AllocationEntry) (data : List Row) :
    Except (List String) (List Row) :=
  let alloc := getAllocationData m api
  let data2 := applyAllocationData alloc data
  match validateAllocationData nb alloc data2 with
  | .ok _ => .ok data2
  | .error e => .error e

/-! Fidelity check of the coldfront embedding against the repository's
`test_coldfront_fetch` scenario. -/

/-- The mocked directory response of `test_coldfront_fetch`. -/
def fetchTestApi : List AllocationEntry :=
  [⟨some "P1", some "P1-name", some "PI1", some "IC1", some "stack"⟩,
   ⟨some "P2", some "P2-name", some "PI1", some "", some "stack"⟩,
   ⟨some "P3", some "P3-name", some "", some "", some "stack"⟩,
   ⟨some "P4", some "P4-name", some "PI12", some "IC2", some "stack"⟩]

/-- The input invoice of `test_coldfront_fetch`. -/
def fetchTestRows : List Row :=
  ["P1", "P1", "P2", "P3", "P4"].map (fun pid =>
    { baseRow with
      projectName := pid
      projectId := pid
      piName := some ""
      institutionCode := some ""
      clusterName := "stack" })

example :
    (coldfrontProcess [] [] fetchTestApi fetchTestRows).map
      (fun rows => rows.map (fun r => (r.projectName, r.piName, r.institutionCode))) =
    .ok [("P1-name", some "PI1", some "IC1"),
         ("P1-name", some "PI1", some "IC1"),
         ("P2-name", some "PI1", some ""),
         ("P3-name", some "", some ""),
         ("P4-name", some "PI12", some "IC2")] := rfl

/-! ## C1: the allocation-validation error message -/

/-- The mocked directory response of the repository's
`test_missing_project_cluster_tuples` scenario: allocations for `P1` and
`P2` on `clusterA` only. -/
def missingPairsApi : List AllocationEntry :=
  [⟨some "P1", some "P1-name", some "PI1", some "IC1", some "clusterA"⟩,
   ⟨some "P2", some "P2-name", some "PI2", some "IC2", some "clusterA"⟩]

/-- The input invoice of `test_missing_project_cluster_tuples`: two rows for
`P1` on different clusters, plus `P2` and `P4`. -/
def missingPairsRows : List Row :=
  [("P1", "clusterA"), ("P1", "clusterB"), ("P2", "clusterA"), ("P4", "clusterA")].map
    (fun pc =>
      { baseRow with
        projectName := pc.1
        projectId := pc.1
        piName := some ""
        institutionCode := some ""
        clusterName := pc.2 })

/-- C1: at the repository's own `test_missing_project_cluster_tuples` input
(allocations for `(P1, clusterA)` and `(P2, clusterA)`; usage rows for `P1`
on `clusterA` and `clusterB`, `P2` and `P4` on `clusterA`) the coldfront-fetch
stage does raise, but the error payload is `["P1", "P4"]` — the ascending
list of missing project *names* — whereas the claim, the specification and
the repository's unit tests all require the missing *(project, cluster)
pairs* `[("P1", "clusterB"), ("P4", "clusterA")]`.  The validation compares
only name sets (`_get_project_name_list` returns bare names), so the pair
information is not in the message at all. -/
theorem coldfront_validation_error_payload_is_project_names :
    coldfrontProcess [] [] missingPairsApi missingPairsRows = .error ["P1", "P4"] := rfl

/-! ## Resolver lemmas -/

theorem mapOpt_eq_some_of (f : α → Option β) (g : α → β) (l : List α)
    (h : ∀ x ∈ l, f x = some (g x)) : mapOpt f l = some (l.map g) := by
  induction l with
  | nil => rfl
  | cons x xs ih =>
    have hx := h x (by simp)
    have hxs := ih (fun y hy => h y (by simp [hy]))
    simp [mapOpt, hx, hxs]

theorem mapOpt_eq_none_of (f : α → Option β) (l : List α) (x : α)
    (hx : x ∈ l) (hfx : f x = none) : mapOpt f l = none := by
  induction l with
  | nil => simp at hx
  | cons y ys ih =>
    rcases List.mem_cons.mp hx with h | h
    · subst h
      simp [mapOpt, hfx]
    · cases hfy : f y <;> simp [mapOpt, hfy, ih h]

theorem resolveCluster_eq_spec (month pname : String) (c : ClusterEntry)
    (h : timedFieldsWF c.start c.stop = true) :
    resolveCluster month pname c = some (specResolveCluster month pname c) := by
  obtain ⟨n, cs, ct⟩ := c
  cases cs with
  | none => rfl
  | some s =>
    simp only [timedFieldsWF, Bool.and_eq_true, Bool.not_eq_true'] at h
    obtain ⟨hs, ht⟩ := h
    cases ct with
    | none => simp at ht
    | some t =>
      cases h1 : strLe s month <;> cases h2 : strLe month t <;>
        simp [resolveCluster, specResolveCluster, truthy, hs, isInTimeRange, h1, h2]

theorem resolveEntry_eq_spec (month : String) (e : RuleEntry)
    (h : entryWF e = true) :
    resolveEntry month e = some (specResolveEntry month e) := by
  obtain ⟨n, cls, es, et⟩ := e
  simp only [entryWF, Bool.and_eq_true, List.all_eq_true] at h
  obtain ⟨h1, h2⟩ := h
  cases es with
  | none =>
    have hmap := mapOpt_eq_some_of (resolveCluster month n) (specResolveCluster month n)
      cls (fun c hc => resolveCluster_eq_spec month n c (h2 c hc))
    cases hc : cls.isEmpty <;>
      simp_all [resolveEntry, specResolveEntry, truthy, List.isEmpty_iff]
  | some s =>
    simp only [timedFieldsWF, Bool.and_eq_true, Bool.not_eq_true'] at h1
    obtain ⟨hs, ht⟩ := h1
    cases et with
    | none => simp at ht
    | some t =>
      cases h3 : strLe s month <;> cases h4 : strLe month t <;>
        cases hc : cls.isEmpty <;>
          simp_all [resolveEntry, specResolveEntry, truthy, isInTimeRange,
            List.isEmpty_iff]

/-- C3: for every well-formed rules file (each present `start` is non-empty
and has an `end`) and every invoice month, `get_nonbillable_projects` equals
the three-branch reference policy of the specification, and in particular
the ProjectD rule of the repository's fixture resolves at month `2023-09` to
exactly `[(ProjectD, Cluster1, true), (ProjectD, Cluster2, true)]`. -/
theorem resolver_matches_reference_policy :
    (∀ (month : String) (rules : List RuleEntry), rules.all entryWF = true →
      getNonbillableProjects month rules = some (specResolve month rules)) ∧
    getNonbillableProjects "2023-09" [entryProjectD] =
      some [⟨"ProjectD", some "Cluster1", true⟩, ⟨"ProjectD", some "Cluster2", true⟩] := by
  constructor
  · intro month rules h
    simp only [List.all_eq_true] at h
    unfold getNonbillableProjects specResolve
    rw [mapOpt_eq_some_of _ (specResolveEntry month) _
      (fun e he => resolveEntry_eq_spec month e (h e he))]
    rfl
  · rfl

theorem resolver_matches_reference_policy_witness :
    ([entryProjectA, entryProjectB, entryProjectC, entryProjectD,
        entryProjectE].all entryWF = true) ∧
    getNonbillableProjects "2023-09"
        [entryProjectA, entryProjectB, entryProjectC, entryProjectD, entryProjectE] =
      some (specResolve "2023-09"
        [entryProjectA, entryProjectB, entryProjectC, entryProjectD, entryProjectE]) :=
  ⟨by decide, resolver_matches_reference_policy.1 "2023-09" _ (by decide)⟩

/-- C8: a rule entry whose top-level window excludes the invoice month emits
nothing; a cluster sub-entry of a non-timed entry whose own window excludes
the month emits nothing; and in particular the ProjectC rule (range
`2023-06 .. 2023-07`) resolved at month `2023-09` yields no tuple at all. -/
theorem resolver_excludes_out_of_range_windows :
    (∀ (month : String) (e : RuleEntry) (s t : String),
      e.start = some s → s.isEmpty = false → e.stop = some t →
      (strLe s month && strLe month t) = false →
      resolveEntry month e = some []) ∧
    (∀ (month pname : String) (c : ClusterEntry) (s t : String),
      c.start = some s → s.isEmpty = false → c.stop = some t →
      (strLe s month && strLe month t) = false →
      resolveCluster month pname c = some []) ∧
    getNonbillableProjects "2023-09" [entryProjectC] = some [] := by
  refine ⟨?_, ?_, rfl⟩
  · intro month e s t hstart hs hstop hrange
    obtain ⟨n, cls, es, et⟩ := e
    simp only at hstart hstop
    subst hstart hstop
    rcases Bool.and_eq_false_iff.mp hrange with h1 | h1 <;>
      cases h3 : strLe s month <;>
        simp_all [resolveEntry, truthy, isInTimeRange]
  · intro month pname c s t hstart hs hstop hrange
    obtain ⟨n, cs, ct⟩ := c
    simp only at hstart hstop
    subst hstart hstop
    rcases Bool.and_eq_false_iff.mp hrange with h1 | h1 <;>
      cases h3 : strLe s month <;>
        simp_all [resolveCluster, truthy, isInTimeRange]

theorem resolver_excludes_out_of_range_windows_witness :
    resolveEntry "2023-09" entryProjectC = some [] :=
  resolver_excludes_out_of_range_windows.1 "2023-09" entryProjectC
    "2023-06" "2023-07" rfl rfl rfl (by decide)

/-- A rule entry with a `start` key but no `end`, whose start lies after the
invoice month `2023-09` used below. -/
def entryStartNoEnd : RuleEntry :=
  ⟨"ProjectX", [], some "2024-01", none⟩

/-- A rule entry with a `start` key at or before the invoice month `2023-09`
used below, and no `end`. -/
def entryStartNoEndReached : RuleEntry :=
  ⟨"ProjectY", [], some "2023-01", none⟩

/-- C9 counterexample: a rules input containing an entry with `start` but no
`end` for which `get_nonbillable_projects` does NOT fail — because
`start <= month` is false, Python's short-circuiting `and` never reads the
missing `end` key, the entry is skipped, and the resolver returns a (empty)
rule set. -/
theorem resolver_missing_end_not_always_fatal_cex :
    entryStartNoEnd.start.isSome = true ∧ entryStartNoEnd.stop = none ∧
    getNonbillableProjects "2023-09" [entryStartNoEnd] = some [] :=
  ⟨rfl, rfl, rfl⟩

/-- C9 (amended): the resolver branches solely on the truthiness of `start`,
and the `end` lookup — guarded only by the short-circuiting
`start <= month` conjunct — raises `KeyError` whenever it is reached: the
run fails for every rules input in which some entry has a (non-empty)
`start` at or before the month but no `end`, and for every input in which
some non-timed entry has a cluster sub-entry with a (non-empty) `start` at
or before the month but no `end`; under the precondition that every `start`
is accompanied by an `end` the resolver is total. -/
theorem resolver_missing_end_failure :
    (∀ (month : String) (rules : List RuleEntry) (e : RuleEntry) (s : String),
      e ∈ rules → e.start = some s → s.isEmpty = false → strLe s month = true →
      e.stop = none → getNonbillableProjects month rules = none) ∧
    (∀ (month : String) (rules : List RuleEntry) (e : RuleEntry)
        (c : ClusterEntry) (s : String),
      e ∈ rules → truthy e.start = false → c ∈ e.clusters →
      c.start = some s → s.isEmpty = false → strLe s month = true →
      c.stop = none → getNonbillableProjects month rules = none) ∧
    (∀ (month : String) (rules : List RuleEntry), rules.all entryWF = true →
      (getNonbillableProjects month rules).isSome = true) := by
  refine ⟨?_, ?_, ?_⟩
  · intro month rules e s he hstart hs hle hstop
    have hent : resolveEntry month e = none := by
      obtain ⟨n, cls, es, et⟩ := e
      simp only at hstart hstop
      subst hstart hstop
      simp [resolveEntry, truthy, isInTimeRange, hs, hle]
    unfold getNonbillableProjects
    rw [mapOpt_eq_none_of (resolveEntry month) rules e he hent]
    rfl
  · intro month rules e c s he htr hc hstart hs hle hstop
    have hclu : resolveCluster month e.name c = none := by
      obtain ⟨n, cs, ct⟩ := c
      simp only at hstart hstop
      subst hstart hstop
      simp [resolveCluster, truthy, isInTimeRange, hs, hle]
    have hne : e.clusters.isEmpty = false := by
      cases hcl : e.clusters with
      | nil => rw [hcl] at hc; simp at hc
      | cons a l => simp
    have hent : resolveEntry month e = none := by
      obtain ⟨n, cls, es, et⟩ := e
      simp only at htr hc hclu hne
      rw [resolveEntry]
      simp only [htr, Bool.false_eq_true, if_false, hne, Bool.not_false, if_true]
      rw [mapOpt_eq_none_of _ cls c hc hclu]
      rfl
    unfold getNonbillableProjects
    rw [mapOpt_eq_none_of (resolveEntry month) rules e he hent]
    rfl
  · intro month rules h
    simp only [List.all_eq_true] at h
    unfold getNonbillableProjects
    rw [mapOpt_eq_some_of _ (specResolveEntry month) _
      (fun e he => resolveEntry_eq_spec month e (h e he))]
    rfl

theorem resolver_missing_end_failure_witness :
    getNonbillableProjects "2023-09" [entryStartNoEndReached] = none :=
  resolver_missing_end_failure.1 "2023-09" [entryStartNoEndReached]
    entryStartNoEndReached "2023-01" (by decide) rfl (by decide) (by decide) rfl


/-! ## Billability claims -/

theorem getBillables_eq_true_iff (nbPis : List String) (nb : List NonbillableProject)
    (row : Row) :
    getBillables nbPis nb row = true ↔
      ((∀ p : String, row.piName = some p → p ∉ nbPis) ∧
        (¬ ∃ r ∈ nb, r.cluster = none ∧
          strLower r.projectName = strLower row.projectName) ∧
        (¬ ∃ r ∈ nb, strLower r.projectName = strLower row.projectName ∧
          r.cluster = some row.clusterName) ∧
        row.clusterName ≠ "ocp-test" ∧ row.clusterName ≠ "barcelona") := by
  have hpi : isNonbillablePi nbPis row.piName = false ↔
      (∀ p : String, row.piName = some p → p ∉ nbPis) := by
    cases hp : row.piName with
    | none => simp [isNonbillablePi]
    | some q =>
      simp only [isNonbillablePi, Option.some.injEq]
      constructor
      · intro hc p hq
        subst hq
        simpa [List.elem_iff] using hc
      · intro hall
        simpa [List.elem_iff] using hall q rfl
  have hag : clusterAgnosticNonbillable nb row = false ↔
      (¬ ∃ r ∈ nb, r.cluster = none ∧
        strLower r.projectName = strLower row.projectName) := by
    simp [clusterAgnosticNonbillable, List.any_eq_true, Option.isNone_iff_eq_none]
  have hsp : clusterSpecificNonbillable nb row = false ↔
      (¬ ∃ r ∈ nb, strLower r.projectName = strLower row.projectName ∧
        r.cluster = some row.clusterName) := by
    simp [clusterSpecificNonbillable, List.any_eq_true]
  have hcl : (NONBILLABLE_CLUSTERS.contains row.clusterName) = false ↔
      (row.clusterName ≠ "ocp-test" ∧ row.clusterName ≠ "barcelona") := by
    simp [NONBILLABLE_CLUSTERS, List.elem_iff]
  simp only [getBillables, findBillableProject, Bool.and_eq_true, Bool.not_eq_true']
  rw [hpi, hag, hsp, hcl]
  tauto

theorem validateBillableProcess_get (nbPis : List String)
    (nb : List NonbillableProject) (data : List Row) (i : Nat)
    (h : i < data.length) (h2 : i < (validateBillableProcess nbPis nb data).length) :
    (validateBillableProcess nbPis nb data).get ⟨i, h2⟩ =
      { data.get ⟨i, h⟩ with
        isBillable := getBillables nbPis nb (data.get ⟨i, h⟩)
        missingPi := (data.get ⟨i, h⟩).piName.isNone } := by
  simp [validateBillableProcess, billableRow, List.getElem_map]

/-- C2: after the validate-billable-pi stage, a row's `Is Billable` field is
true exactly when its PI name is not in the nonbillable-PI list, its project
name matches no cluster-agnostic rule and its (project, cluster) pair
matches no cluster-specific rule (case-insensitively on project names), and
its cluster is neither `ocp-test` nor `barcelona`. -/
theorem is_billable_iff (nbPis : List String) (nb : List NonbillableProject)
    (data : List Row) (i : Nat) (h : i < data.length)
    (h2 : i < (validateBillableProcess nbPis nb data).length) :
    ((validateBillableProcess nbPis nb data).get ⟨i, h2⟩).isBillable = true ↔
      ((∀ p : String, (data.get ⟨i, h⟩).piName = some p → p ∉ nbPis) ∧
        (¬ ∃ r ∈ nb, r.cluster = none ∧
          strLower r.projectName = strLower (data.get ⟨i, h⟩).projectName) ∧
        (¬ ∃ r ∈ nb, strLower r.projectName = strLower (data.get ⟨i, h⟩).projectName ∧
          r.cluster = some (data.get ⟨i, h⟩).clusterName) ∧
        (data.get ⟨i, h⟩).clusterName ≠ "ocp-test" ∧
        (data.get ⟨i, h⟩).clusterName ≠ "barcelona") := by
  rw [validateBillableProcess_get nbPis nb data i h h2]
  exact getBillables_eq_true_iff nbPis nb (data.get ⟨i, h⟩)

/-- A billable concrete row used to witness the billability theorems. -/
def billableWitnessRow : Row :=
  { baseRow with projectName := "ProjA", piName := some "PIA", clusterName := "stack" }

theorem is_billable_iff_witness :
    ((validateBillableProcess ["PIB"] [⟨"projb", none, false⟩]
        [billableWitnessRow]).get ⟨0, by decide⟩).isBillable = true :=
  (is_billable_iff ["PIB"] [⟨"projb", none, false⟩] [billableWitnessRow] 0
      (by decide) (by decide)).mpr
    ⟨by intro p hp; cases hp; decide, by decide, by decide, by decide, by decide⟩

/-- A row whose PI field holds the blank (empty, non-null) string, as the
coldfront stage leaves it for unmatched rows. -/
def blankPiRow : Row :=
  { baseRow with piName := some "", projectName := "ProjectZ", clusterName := "stack" }

/-- C4 counterexample: a row whose `Manager (PI)` value is the blank string
`""` — non-null, so not pandas-NA — comes out of the validate-billable-pi
stage with `Missing PI = false`, although the claim requires `true` for a
blank PI name. -/
theorem missing_pi_blank_cex :
    blankPiRow.piName = some "" ∧
    (validateBillableProcess [] [] [blankPiRow]).map (fun r => r.missingPi) =
      [false] :=
  ⟨rfl, rfl⟩

/-- C4 (amended): after the validate-billable-pi stage, a row's `Missing PI`
field is true exactly when its `Manager (PI)` value is null (pandas NA); a
blank but non-null PI name yields false. -/
theorem missing_pi_iff_null (nbPis : List String) (nb : List NonbillableProject)
    (data : List Row) (i : Nat) (h : i < data.length)
    (h2 : i < (validateBillableProcess nbPis nb data).length) :
    ((validateBillableProcess nbPis nb data).get ⟨i, h2⟩).missingPi = true ↔
      (data.get ⟨i, h⟩).piName = none := by
  rw [validateBillableProcess_get nbPis nb data i h h2]
  simp [Option.isNone_iff_eq_none]

theorem missing_pi_iff_null_witness :
    ((validateBillableProcess [] [] [{ baseRow with projectName := "ProjNull" }]).get
        ⟨0, by decide⟩).missingPi = true :=
  (missing_pi_iff_null [] [] [{ baseRow with projectName := "ProjNull" }] 0
      (by decide) (by decide)).mpr rfl

/-- C5: project-name matching is case-insensitive on both sides — a rule row
matches on the cluster-agnostic path exactly when its `Cluster` is null and
the lowercased names agree, and on the cluster-specific path exactly when
the lowercased project names agree and its `Cluster` equals the row's
cluster name verbatim (not lowercased).  Concretely: project `P1` matches
rule `p1`; rule (`p8`, cluster `bm`) matches a `P8` row on `bm`; rule
(`p8`, cluster `BM`) does not match that row, since cluster names are
compared exactly. -/
theorem project_matching_case_insensitive :
    (∀ (nb : List NonbillableProject) (row : Row),
      clusterAgnosticNonbillable nb row = true ↔
        ∃ r ∈ nb, r.cluster = none ∧
          strLower r.projectName = strLower row.projectName) ∧
    (∀ (nb : List NonbillableProject) (row : Row),
      clusterSpecificNonbillable nb row = true ↔
        ∃ r ∈ nb, strLower r.projectName = strLower row.projectName ∧
          r.cluster = some row.clusterName) ∧
    clusterAgnosticNonbillable [⟨"p1", none, false⟩]
      { baseRow with projectName := "P1", clusterName := "stack" } = true ∧
    clusterSpecificNonbillable [⟨"p8", some "bm", false⟩]
      { baseRow with projectName := "P8", clusterName := "bm" } = true ∧
    clusterSpecificNonbillable [⟨"p8", some "BM", false⟩]
      { baseRow with projectName := "P8", clusterName := "bm" } = false := by
  refine ⟨?_, ?_, by decide, by decide, by decide⟩
  · intro nb row
    simp [clusterAgnosticNonbillable, List.any_eq_true, Option.isNone_iff_eq_none]
  · intro nb row
    simp [clusterSpecificNonbillable, List.any_eq_true]

theorem project_matching_case_insensitive_witness :
    clusterAgnosticNonbillable [⟨"alpha", none, true⟩]
      { baseRow with projectName := "ALPHA", clusterName := "stack" } = true :=
  (project_matching_case_insensitive.1 [⟨"alpha", none, true⟩]
      { baseRow with projectName := "ALPHA", clusterName := "stack" }).mpr
    ⟨⟨"alpha", none, true⟩, by decide, rfl, by decide⟩

/-! ## Allocation-record tolerance (C10) -/

/-- C10: a directory record carrying project ID, project name, PI and
resource name but no Institution-Specific Code is not skipped: it parses to
an allocation item whose institution code is the literal `"N/A"`, and
applying the resulting mapping overwrites project name and PI on every row
matching its (project ID, cluster) key and sets those rows' institution code
to `"N/A"`; a record is skipped exactly when project ID, project name, PI or
resource name is missing. -/
theorem allocation_missing_institution_not_skipped :
    (∀ (m : List (String × String)) (e : AllocationEntry)
        (pid pname piv res : String),
      e.projectId = some pid → e.projectName = some pname → e.pi = some piv →
      e.resourceName = some res → e.institutionCode = none →
      parseAllocation m e =
        some ((pid, clusterNameMap m res), ⟨pname, piv, "N/A"⟩)) ∧
    (∀ (m : List (String × String)) (e : AllocationEntry),
      parseAllocation m e = none ↔
        (e.projectId = none ∨ e.projectName = none ∨ e.pi = none ∨
          e.resourceName = none)) ∧
    (∀ (m : List (String × String)) (e : AllocationEntry)
        (pid pname piv res : String) (data : List Row),
      e.projectId = some pid → e.projectName = some pname → e.pi = some piv →
      e.resourceName = some res → e.institutionCode = none →
      applyAllocationData (getAllocationData m [e]) data =
        data.map (fun row =>
          if row.projectId == pid && row.clusterName == clusterNameMap m res then
            { row with
              projectName := pname
              piName := some piv
              institutionCode := some "N/A" }
          else row)) := by
  refine ⟨?_, ?_, ?_⟩
  · intro m e pid pname piv res h1 h2 h3 h4 h5
    obtain ⟨a, b, c, d, f⟩ := e
    simp only at h1 h2 h3 h4 h5
    subst h1 h2 h3 h4 h5
    rfl
  · intro m e
    obtain ⟨a, b, c, d, f⟩ := e
    cases a <;> cases b <;> cases c <;> cases f <;> simp [parseAllocation]
  · intro m e pid pname piv res data h1 h2 h3 h4 h5
    obtain ⟨a, b, c, d, f⟩ := e
    simp only at h1 h2 h3 h4 h5
    subst h1 h2 h3 h4 h5
    rfl

theorem allocation_missing_institution_not_skipped_witness :
    parseAllocation [] ⟨some "PRJ1", some "PRJ1-name", some "PI9", none, some "stack"⟩ =
      some (("PRJ1", "stack"), ⟨"PRJ1-name", "PI9", "N/A"⟩) :=
  allocation_missing_institution_not_skipped.1 []
    ⟨some "PRJ1", some "PRJ1-name", some "PI9", none, some "stack"⟩
    "PRJ1" "PRJ1-name" "PI9" "stack" rfl rfl rfl rfl rfl

/-! ## The nine-stage preliminary pipeline

The pipeline of `process_report.main` runs nine stages in a fixed order.
Two of them (coldfront fetch, validate billable PI) are embedded above from
their sources; the other seven stage modules are not among the sources at
hand and are modelled from the specification (§4.4), each as a stage that
adds or updates its own columns row by row. -/

/-- The fixed per-run configuration: rule files, alias tables, the directory
response and the rate/credit/prepay parameters, all held immutable for the
duration of a run. -/
structure Config where
  clusterAliasMap : List (String × String)
  canonicalClusters : List String
  allocationApi : List AllocationEntry
  nonbillablePis : List String
  nonbillableProjects : List NonbillableProject
  piAliasMap : List (String × List String)
  instituteList : List (String × String)
  suChargeInfo : List (String × Int)
  oldPis : List String
  newPiCreditAmount : Int
  limitCreditToPartners : Bool
  partnerInstitutions : List String
  buSubsidyAmount : Int
  prepayProjects : List (String × String)
  prepayCredits : List (String × Int)
  prepayDebits : List String
deriving Repr

/-- Modelled from the spec: the cluster-name validation stage (module
`validate_cluster_name_processor`, not among the sources at hand) maps known
aliases to canonical cluster names; a name that is already canonical passes
through, and a name that is neither canonical nor a known alias is fatal. -/
def normalizeClusterName (cfg : Config) (c : String) : Option String :=
  if cfg.canonicalClusters.contains c then some c
  else cfg.clusterAliasMap.lookup c

/-- Modelled from the spec: the per-row cluster-name rewrite of the
cluster-name validation stage. -/
def clusterRow (cfg : Config) (r : Row) : Row :=
  { r with clusterName := (normalizeClusterName cfg r.clusterName).getD r.clusterName }

/-- Modelled from the spec: the cluster-name validation stage applied to the
dataset — it fails fatally on an unrecognized cluster name, else rewrites
every row's cluster name to its canonical form. -/
def validateClusterNameStage (cfg : Config) (data : List Row) :
    Except (List String) (List Row) :=
  if data.all (fun r => (normalizeClusterName cfg r.clusterName).isSome) then
    .ok (data.map (clusterRow cfg))
  else
    .error ["unrecognized cluster name"]

/-- The coldfront-fetch stage (embedded from source above) over the run
configuration. -/
def coldfrontStage (cfg : Config) (data : List Row) :
    Except (List String) (List Row) :=
  coldfrontProcess cfg.clusterAliasMap cfg.nonbillableProjects cfg.allocationApi data

/-- Modelled from the spec: PI-alias canonicalization rewrites a PI
identifier to the canonical name whose alias list contains it (reverse
lookup); unmatched PI names pass through unchanged.  The module
`validate_pi_alias_processor` is not among the sources at hand. -/
def canonicalizePi (m : List (String × List String)) (p : String) : String :=
  match m.find? (fun ca => ca.2.contains p) with
  | some ca => ca.1
  | none => p

/-- Modelled from the spec: the per-row PI-alias rewrite. -/
def piAliasRow (cfg : Config) (r : Row) : Row :=
  { r with piName := r.piName.map (canonicalizePi cfg.piAliasMap) }

/-- Modelled from the spec: the PI-alias canonicalization stage applied to
the dataset. -/
def validatePiAliasStage (cfg : Config) (data : List Row) : List Row :=
  data.map (piAliasRow cfg)

/-- Modelled from the spec: institution attribution fills the institution
code from a static institute list (keyed here by the PI identifier) when it
is not already set — e.g. by the enrichment stage.  The module
`add_institution_processor` is not among the sources at hand. -/
def institutionRow (cfg : Config) (r : Row) : Row :=
  match r.institutionCode with
  | some _ => r
  | none =>
    { r with institutionCode := r.piName.bind (fun p => cfg.instituteList.lookup p) }

/-- Modelled from the spec: the institution-attribution stage applied to the
dataset. -/
def addInstitutionStage (cfg : Config) (data : List Row) : List Row :=
  data.map (institutionRow cfg)

/-- Modelled from the spec: the Lenovo compute-unit rate annotation
multiplies the row's service-unit count by the per-unit charge of its
service-unit type into the adjusted charge column; rows whose service-unit
type carries no charge are untouched.  The module `lenovo_processor` is not
among the sources at hand. -/
def lenovoRow (cfg : Config) (r : Row) : Row :=
  match r.suType.bind (fun t => cfg.suChargeInfo.lookup t) with
  | some rate => { r with suCharge := r.suCount * rate }
  | none => r

/-- Modelled from the spec: the Lenovo rate-annotation stage applied to the
dataset. -/
def lenovoStage (cfg : Config) (data : List Row) : List Row :=
  data.map (lenovoRow cfg)

/-- The validate-billable-pi stage (embedded from source above) over the run
configuration. -/
def validateBillableStage (cfg : Config) (data : List Row) : List Row :=
  validateBillableProcess cfg.nonbillablePis cfg.nonbillableProjects data

/-- Modelled from the spec: a row is eligible for the new-PI credit when it
is billable, its PI is newly observed relative to the historical PI list,
and — when the credit is limited to partners — its institution is a partner
institution.  The module `new_pi_credit_processor` is not among the sources
at hand. -/
def newPiCreditEligible (cfg : Config) (r : Row) : Bool :=
  r.isBillable &&
    (match r.piName with
     | some p => !cfg.oldPis.contains p
     | none => false) &&
    (!cfg.limitCreditToPartners ||
      (match r.institutionCode with
       | some i => cfg.partnerInstitutions.contains i
       | none => false))

/-- Modelled from the spec: the new-PI credit stage grants the fixed credit
amount to eligible rows, clipped by the row's cost. -/
def creditRow (cfg : Config) (r : Row) : Row :=
  { r with
    credit := if newPiCreditEligible cfg r then min r.cost cfg.newPiCreditAmount else 0 }

/-- Modelled from the spec: the new-PI credit stage applied to the
dataset. -/
def newPiCreditStage (cfg : Config) (data : List Row) : List Row :=
  data.map (creditRow cfg)

/-- Modelled from the spec: the subsidy stage applies the flat subsidy
amount per row, clipped so the cost remaining after the credit never goes
negative.  The module `bu_subsidy_processor` is not among the sources at
hand. -/
def subsidyRow (cfg : Config) (r : Row) : Row :=
  { r with subsidy := min (r.cost - r.credit) cfg.buSubsidyAmount }

/-- Modelled from the spec: the subsidy stage applied to the dataset. -/
def buSubsidyStage (cfg : Config) (data : List Row) : List Row :=
  data.map (subsidyRow cfg)

/-- Modelled from the spec: the prepayment stage fails when the debit file
references a contract with no known prepay credit balance.  The module
`prepayment_processor` is not among the sources at hand. -/
def prepayDebitsConsistent (cfg : Config) : Bool :=
  cfg.prepayDebits.all (fun c => cfg.prepayCredits.any (fun pc => pc.1 == c))

/-- Replace one contract's remaining balance. -/
def updateBalance (bal : List (String × Int)) (contract : String) (v : Int) :
    List (String × Int) :=
  bal.map (fun p => if p.1 == contract then (p.1, v) else p)

/-- Modelled from the spec: one row's prepay drawdown — a row of a
prepay-eligible project draws its remaining post-credit post-subsidy cost
from its contract's remaining balance, never more than is available; other
rows are untouched (their prepaid column is zero). -/
def prepayRow (cfg : Config) (bal : List (String × Int)) (r : Row) :
    List (String × Int) × Row :=
  match cfg.prepayProjects.lookup r.projectName with
  | some contract =>
    match bal.lookup contract with
    | some avail =>
      (updateBalance bal contract (avail - min (r.cost - r.credit - r.subsidy) avail),
       { r with prepaid := min (r.cost - r.credit - r.subsidy) avail })
    | none => (bal, { r with prepaid := 0 })
  | none => (bal, { r with prepaid := 0 })

/-- Modelled from the spec: the prepay drawdown threaded through the rows in
order, tracking the remaining balance per contract. -/
def prepayFold (cfg : Config) :
    List (String × Int) → List Row → List (String × Int) × List Row
  | bal, [] => (bal, [])
  | bal, r :: rs =>
    let p := prepayRow cfg bal r
    let q := prepayFold cfg p.1 rs
    (q.1, p.2 :: q.2)

/-- Modelled from the spec: the prepayment stage — check the debit file
against the known contracts, then draw down balances across the dataset. -/
def prepaymentStage (cfg : Config) (data : List Row) :
    Except (List String) (List Row) :=
  if prepayDebitsConsistent cfg then
    .ok (prepayFold cfg cfg.prepayCredits data).2
  else
    .error ["prepay debit references unknown contract"]

/-- The preliminary pipeline: the nine stages in the fixed order of
`process_merged_dataframe` in `process_report.main`. -/
def pipeline (cfg : Config) (data : List Row) : Except (List String) (List Row) := do
  let d1 ← validateClusterNameStage cfg data
  let d2 ← coldfrontStage cfg d1
  let d3 := validatePiAliasStage cfg d2
  let d4 := addInstitutionStage cfg d3
  let d5 := lenovoStage cfg d4
  let d6 := validateBillableStage cfg d5
  let d7 := newPiCreditStage cfg d6
  let d8 := buSubsidyStage cfg d7
  prepaymentStage cfg d8

/-! ## Row-count preservation (C6) -/

theorem applyAllocationData_cons (kv : (String × String) × AllocationInfo)
    (rest : List ((String × String) × AllocationInfo)) (data : List Row) :
    applyAllocationData (kv :: rest) data =
      applyAllocationData rest (data.map (applyStep kv)) := rfl

theorem applyAllocationData_length
    (alloc : List ((String × String) × AllocationInfo)) (data : List Row) :
    (applyAllocationData alloc data).length = data.length := by
  induction alloc generalizing data with
  | nil => rfl
  | cons kv rest ih => rw [applyAllocationData_cons, ih, List.length_map]

theorem prepayFold_length (cfg : Config) (bal : List (String × Int))
    (l : List Row) : (prepayFold cfg bal l).2.length = l.length := by
  induction l generalizing bal with
  | nil => rfl
  | cons r rs ih => simp [prepayFold, ih]

theorem coldfrontProcess_ok_iff (m : List (String × String))
    (nb : List NonbillableProject) (api : List AllocationEntry)
    (data out : List Row) :
    coldfrontProcess m nb api data = .ok out ↔
      (out = applyAllocationData (getAllocationData m api) data ∧
        validateAllocationData nb (getAllocationData m api)
          (applyAllocationData (getAllocationData m api) data) = .ok ()) := by
  unfold coldfrontProcess
  cases hv : validateAllocationData nb (getAllocationData m api)
      (applyAllocationData (getAllocationData m api) data) with
  | ok u =>
    cases u
    simp [hv, eq_comm]
  | error e =>
    simp [hv]

/-- C6: every one of the nine preliminary stages preserves the dataset's row
count — the two stages embedded from source (coldfront fetch, validate
billable PI) and the seven stages modelled from the specification only add
or update columns, never filter, drop or duplicate rows. -/
theorem stage_row_count_preserved :
    (∀ (cfg : Config) (data out : List Row),
      validateClusterNameStage cfg data = .ok out → out.length = data.length) ∧
    (∀ (cfg : Config) (data out : List Row),
      coldfrontStage cfg data = .ok out → out.length = data.length) ∧
    (∀ (cfg : Config) (data : List Row),
      (validatePiAliasStage cfg data).length = data.length) ∧
    (∀ (cfg : Config) (data : List Row),
      (addInstitutionStage cfg data).length = data.length) ∧
    (∀ (cfg : Config) (data : List Row),
      (lenovoStage cfg data).length = data.length) ∧
    (∀ (cfg : Config) (data : List Row),
      (validateBillableStage cfg data).length = data.length) ∧
    (∀ (cfg : Config) (data : List Row),
      (newPiCreditStage cfg data).length = data.length) ∧
    (∀ (cfg : Config) (data : List Row),
      (buSubsidyStage cfg data).length = data.length) ∧
    (∀ (cfg : Config) (data out : List Row),
      prepaymentStage cfg data = .ok out → out.length = data.length) := by
  refine ⟨?_, ?_, ?_, ?_, ?_, ?_, ?_, ?_, ?_⟩
  · intro cfg data out h
    unfold validateClusterNameStage at h
    split at h
    · cases h
      exact List.length_map data _
    · cases h
  · intro cfg data out h
    obtain ⟨rfl, -⟩ := (coldfrontProcess_ok_iff _ _ _ _ _).mp h
    exact applyAllocationData_length _ _
  · intro cfg data
    exact List.length_map data _
  · intro cfg data
    exact List.length_map data _
  · intro cfg data
    exact List.length_map data _
  · intro cfg data
    exact List.length_map data _
  · intro cfg data
    exact List.length_map data _
  · intro cfg data
    exact List.length_map data _
  · intro cfg data out h
    unfold prepaymentStage at h
    split at h
    · cases h
      exact prepayFold_length _ _ _
    · cases h

/-- A configuration on which the witness dataset passes every stage. -/
def witnessConfig : Config where
  clusterAliasMap := []
  canonicalClusters := ["stack"]
  allocationApi := [⟨some "P1", some "P1-name", some "PI1", some "IC1", some "stack"⟩]
  nonbillablePis := []
  nonbillableProjects := []
  piAliasMap := []
  instituteList := []
  suChargeInfo := []
  oldPis := []
  newPiCreditAmount := 0
  limitCreditToPartners := false
  partnerInstitutions := []
  buSubsidyAmount := 0
  prepayProjects := []
  prepayCredits := []
  prepayDebits := []

/-- A concrete usage row on the canonical cluster of `witnessConfig`. -/
def witnessRow : Row :=
  { baseRow with
    projectName := "P1"
    projectId := "P1"
    piName := some ""
    institutionCode := some ""
    clusterName := "stack" }

theorem stage_row_count_preserved_witness :
    validateClusterNameStage witnessConfig [witnessRow] = .ok [witnessRow] ∧
    ([witnessRow] : List Row).length = ([witnessRow] : List Row).length :=
  ⟨rfl, stage_row_count_preserved.1 witnessConfig [witnessRow] [witnessRow] rfl⟩

/-! ## Pipeline idempotence (C7): row-level machinery -/

/-- The per-row effect of `_apply_allocation_data`: fold the allocation
items over one row. -/
def applyAllocRow (alloc : List ((String × String) × AllocationInfo))
    (r : Row) : Row :=
  alloc.foldl (fun row kv => applyStep kv row) r

theorem applyAllocationData_eq_map
    (alloc : List ((String × String) × AllocationInfo)) (data : List Row) :
    applyAllocationData alloc data = data.map (applyAllocRow alloc) := by
  induction alloc generalizing data with
  | nil => exact (List.map_id data).symm
  | cons kv rest ih =>
    rw [applyAllocationData_cons, ih, List.map_map]
    rfl

/-- The allocation item that ends up applied to a row with the given
(project ID, cluster name) key: the last item with that key, since later
ones overwrite earlier ones. -/
def matchedInfo : List ((String × String) × AllocationInfo) → String → String →
    Option AllocationInfo
  | [], _, _ => none
  | kv :: rest, pid, cn =>
    match matchedInfo rest pid cn with
    | some i => some i
    | none => if pid == kv.1.1 && cn == kv.1.2 then some kv.2 else none

theorem overwriteRow_overwriteRow (i j : AllocationInfo) (r : Row) :
    overwriteRow i (overwriteRow j r) = overwriteRow i r := rfl

theorem overwriteRow_projectId (i : AllocationInfo) (r : Row) :
    (overwriteRow i r).projectId = r.projectId := rfl

theorem overwriteRow_clusterName (i : AllocationInfo) (r : Row) :
    (overwriteRow i r).clusterName = r.clusterName := rfl

theorem applyAllocRow_eq (alloc : List ((String × String) × AllocationInfo))
    (r : Row) :
    applyAllocRow alloc r =
      match matchedInfo alloc r.projectId r.clusterName with
      | some info => overwriteRow info r
      | none => r := by
  induction alloc generalizing r with
  | nil => rfl
  | cons kv rest ih =>
    by_cases h : (r.projectId == kv.1.1 && r.clusterName == kv.1.2) = true
    · have hstep : applyAllocRow (kv :: rest) r =
          applyAllocRow rest (overwriteRow kv.2 r) := by
        show applyAllocRow rest (applyStep kv r) = _
        rw [show applyStep kv r = overwriteRow kv.2 r from if_pos h]
      rw [hstep, ih, overwriteRow_projectId, overwriteRow_clusterName]
      simp only [matchedInfo, h, if_true]
      cases matchedInfo rest r.projectId r.clusterName with
      | some i => exact overwriteRow_overwriteRow i kv.2 r
      | none => rfl
    · have hstep : applyAllocRow (kv :: rest) r = applyAllocRow rest r := by
        show applyAllocRow rest (applyStep kv r) = _
        rw [show applyStep kv r = r from if_neg h]
      rw [hstep, ih]
      simp only [matchedInfo, h, if_false]
      cases matchedInfo rest r.projectId r.clusterName with
      | some i => rfl
      | none => rfl

/-! Field-level forms of the billability and credit predicates: each reads
only the listed columns of its row, which the following `rfl` bridges make
explicit. -/

/-- `find_billable_projects` as a function of the columns it reads. -/
def findBillableFields (nb : List NonbillableProject) (pn cn : String) : Bool :=
  !(nb.any (fun r => r.cluster.isNone && strLower r.projectName == strLower pn)) &&
    !(nb.any (fun r => strLower r.projectName == strLower pn && r.cluster == some cn)) &&
    !(NONBILLABLE_CLUSTERS.contains cn)

theorem findBillableProject_fields (nb : List NonbillableProject) (r : Row) :
    findBillableProject nb r = findBillableFields nb r.projectName r.clusterName := rfl

/-- `_get_billables` as a function of the columns it reads. -/
def getBillablesFields (nbPis : List String) (nb : List NonbillableProject)
    (pi : Option String) (pn cn : String) : Bool :=
  !isNonbillablePi nbPis pi && findBillableFields nb pn cn

theorem getBillables_fields (nbPis : List String) (nb : List NonbillableProject)
    (r : Row) :
    getBillables nbPis nb r =
      getBillablesFields nbPis nb r.piName r.projectName r.clusterName := rfl

/-- New-PI credit eligibility as a function of the columns it reads. -/
def eligibleFields (cfg : Config) (ib : Bool) (pi ic : Option String) : Bool :=
  ib &&
    (match pi with
     | some p => !cfg.oldPis.contains p
     | none => false) &&
    (!cfg.limitCreditToPartners ||
      (match ic with
       | some i => cfg.partnerInstitutions.contains i
       | none => false))

theorem newPiCreditEligible_fields (cfg : Config) (r : Row) :
    newPiCreditEligible cfg r =
      eligibleFields cfg r.isBillable r.piName r.institutionCode := rfl

/-- The composite per-row effect of stages three to eight (PI alias,
institution, Lenovo, billability, credit, subsidy). -/
def midRow (cfg : Config) (r : Row) : Row :=
  subsidyRow cfg (creditRow cfg (billableRow cfg.nonbillablePis
    cfg.nonbillableProjects (lenovoRow cfg (institutionRow cfg (piAliasRow cfg r)))))

theorem mid_stages_eq_map (cfg : Config) (l : List Row) :
    buSubsidyStage cfg (newPiCreditStage cfg (validateBillableStage cfg
      (lenovoStage cfg (addInstitutionStage cfg (validatePiAliasStage cfg l))))) =
    l.map (midRow cfg) := by
  simp only [buSubsidyStage, newPiCreditStage, validateBillableStage,
    validateBillableProcess, lenovoStage, addInstitutionStage,
    validatePiAliasStage, List.map_map]
  exact List.map_congr_left (fun r _ => rfl)

/-- The PI column after the middle stages. -/
def midPi (cfg : Config) (pi : Option String) : Option String :=
  pi.map (canonicalizePi cfg.piAliasMap)

/-- The institution column after the middle stages. -/
def midInst (cfg : Config) (pi ic : Option String) : Option String :=
  match ic with
  | some c => some c
  | none => (midPi cfg pi).bind (fun p => cfg.instituteList.lookup p)

/-- The service-unit charge column after the middle stages. -/
def midSuCharge (cfg : Config) (st : Option String) (scnt sch : Int) : Int :=
  match st.bind (fun t => cfg.suChargeInfo.lookup t) with
  | some rate => scnt * rate
  | none => sch

/-- The billability column after the middle stages. -/
def midBillable (cfg : Config) (pi : Option String) (pn cn : String) : Bool :=
  getBillablesFields cfg.nonbillablePis cfg.nonbillableProjects
    (midPi cfg pi) pn cn

/-- The credit column after the middle stages. -/
def midCredit (cfg : Config) (pi ic : Option String) (pn cn : String)
    (cost : Int) : Int :=
  if eligibleFields cfg (midBillable cfg pi pn cn) (midPi cfg pi)
      (midInst cfg pi ic) then
    min cost cfg.newPiCreditAmount
  else 0

theorem midRow_eval (cfg : Config) (r : Row) :
    midRow cfg r =
      { r with
        piName := midPi cfg r.piName
        institutionCode := midInst cfg r.piName r.institutionCode
        suCharge := midSuCharge cfg r.suType r.suCount r.suCharge
        isBillable := midBillable cfg r.piName r.projectName r.clusterName
        missingPi := (midPi cfg r.piName).isNone
        credit := midCredit cfg r.piName r.institutionCode r.projectName
          r.clusterName r.cost
        subsidy := min
          (r.cost - midCredit cfg r.piName r.institutionCode r.projectName
            r.clusterName r.cost)
          cfg.buSubsidyAmount } := by
  obtain ⟨pn, pid, pi, cn, ic, cost, rate, st, scnt, sch, ib, mp, cr, sb, pp⟩ := r
  cases ic with
  | some c =>
    cases hl : st.bind (fun t => cfg.suChargeInfo.lookup t) with
    | some rt =>
      simp [midRow, subsidyRow, creditRow, billableRow, lenovoRow,
        institutionRow, piAliasRow, midPi, midInst, midSuCharge, midBillable,
        midCredit, getBillables_fields, newPiCreditEligible_fields, hl]
    | none =>
      simp [midRow, subsidyRow, creditRow, billableRow, lenovoRow,
        institutionRow, piAliasRow, midPi, midInst, midSuCharge, midBillable,
        midCredit, getBillables_fields, newPiCreditEligible_fields, hl]
  | none =>
    cases hl : st.bind (fun t => cfg.suChargeInfo.lookup t) with
    | some rt =>
      simp [midRow, subsidyRow, creditRow, billableRow, lenovoRow,
        institutionRow, piAliasRow, midPi, midInst, midSuCharge, midBillable,
        midCredit, getBillables_fields, newPiCreditEligible_fields, hl]
    | none =>
      simp [midRow, subsidyRow, creditRow, billableRow, lenovoRow,
        institutionRow, piAliasRow, midPi, midInst, midSuCharge, midBillable,
        midCredit, getBillables_fields, newPiCreditEligible_fields, hl]

/-- A canonical PI name must not itself appear in any alias list; the
reverse-lookup rewrite is then stable. -/
def PiAliasWF (cfg : Config) : Prop :=
  ∀ p ∈ cfg.piAliasMap, ∀ q ∈ cfg.piAliasMap, q.2.contains p.1 = false

/-- Every alias target of the cluster table must be a canonical cluster
name; normalization is then stable. -/
def ClusterAliasWF (cfg : Config) : Prop :=
  ∀ p ∈ cfg.clusterAliasMap, p.2 ∈ cfg.canonicalClusters

/-- Well-formedness of a run configuration: the two alias tables are
normalized.  The pipeline's re-run stability is proved under this
hypothesis. -/
def ConfigWF (cfg : Config) : Prop :=
  ClusterAliasWF cfg ∧ PiAliasWF cfg

theorem lookup_mem {β : Type} (l : List (String × β)) (k : String) (v : β)
    (h : l.lookup k = some v) : (k, v) ∈ l := by
  induction l with
  | nil => simp [List.lookup] at h
  | cons p rest ih =>
    rw [List.lookup] at h
    by_cases hk : (k == p.1) = true
    · rw [hk] at h
      cases h
      have hk2 : k = p.1 := by simpa using hk
      rw [hk2]
      exact List.mem_cons_self p rest
    · rw [Bool.not_eq_true] at hk
      rw [hk] at h
      exact List.mem_cons_of_mem p (ih h)

theorem canonicalizePi_of_find (m : List (String × List String)) (p : String)
    (ca : String × List String)
    (hf : m.find? (fun x => x.2.contains p) = some ca) :
    canonicalizePi m p = ca.1 := by
  unfold canonicalizePi
  rw [hf]

theorem canonicalizePi_of_none (m : List (String × List String)) (p : String)
    (hf : m.find? (fun x => x.2.contains p) = none) :
    canonicalizePi m p = p := by
  unfold canonicalizePi
  rw [hf]

theorem canonicalizePi_idem (cfg : Config) (h : PiAliasWF cfg) (p : String) :
    canonicalizePi cfg.piAliasMap (canonicalizePi cfg.piAliasMap p) =
      canonicalizePi cfg.piAliasMap p := by
  cases hf : cfg.piAliasMap.find? (fun x => x.2.contains p) with
  | none =>
    rw [canonicalizePi_of_none cfg.piAliasMap p hf]
    exact canonicalizePi_of_none cfg.piAliasMap p hf
  | some ca =>
    have hmem := List.mem_of_find?_eq_some hf
    have hnone : cfg.piAliasMap.find? (fun x => x.2.contains ca.1) = none := by
      apply List.find?_eq_none.mpr
      intro q hq hcon
      have hfalse := h ca hmem q hq
      simp only [hfalse] at hcon
      exact Bool.noConfusion hcon
    rw [canonicalizePi_of_find cfg.piAliasMap p ca hf,
      canonicalizePi_of_none cfg.piAliasMap ca.1 hnone]

theorem normalizeClusterName_idem (cfg : Config) (h : ClusterAliasWF cfg)
    (c c' : String) (hc : normalizeClusterName cfg c = some c') :
    normalizeClusterName cfg c' = some c' := by
  unfold normalizeClusterName at hc ⊢
  by_cases hin : (cfg.canonicalClusters.contains c) = true
  · rw [if_pos hin] at hc
    cases hc
    rw [if_pos hin]
  · rw [if_neg hin] at hc
    have hmem := lookup_mem cfg.clusterAliasMap c c' hc
    have : cfg.canonicalClusters.contains c' = true := by
      have := h (c, c') hmem
      simpa [List.elem_iff] using this
    rw [if_pos this]

theorem midPi_idem (cfg : Config) (h : PiAliasWF cfg) (pi : Option String) :
    midPi cfg (midPi cfg pi) = midPi cfg pi := by
  cases pi with
  | none => rfl
  | some p => simp [midPi, canonicalizePi_idem cfg h]

theorem midInst_idem (cfg : Config) (h : PiAliasWF cfg) (pi ic : Option String) :
    midInst cfg (midPi cfg pi) (midInst cfg pi ic) = midInst cfg pi ic := by
  cases ic with
  | some c => rfl
  | none =>
    cases hz : (midPi cfg pi).bind (fun p => cfg.instituteList.lookup p) with
    | some c => simp [midInst, hz]
    | none => simp [midInst, hz, midPi_idem cfg h]

theorem midSuCharge_stable (cfg : Config) (st : Option String) (scnt a : Int) :
    midSuCharge cfg st scnt (midSuCharge cfg st scnt a) =
      midSuCharge cfg st scnt a := by
  cases hl : st.bind (fun t => cfg.suChargeInfo.lookup t) with
  | some rt => simp [midSuCharge, hl]
  | none => simp [midSuCharge, hl]

theorem midBillable_stable (cfg : Config) (h : PiAliasWF cfg)
    (pi : Option String) (pn cn : String) :
    midBillable cfg (midPi cfg pi) pn cn = midBillable cfg pi pn cn := by
  unfold midBillable
  rw [midPi_idem cfg h]

theorem midCredit_stable (cfg : Config) (h : PiAliasWF cfg)
    (pi ic : Option String) (pn cn : String) (cost : Int) :
    midCredit cfg (midPi cfg pi) (midInst cfg pi ic) pn cn cost =
      midCredit cfg pi ic pn cn cost := by
  unfold midCredit
  rw [midPi_idem cfg h, midInst_idem cfg h, midBillable_stable cfg h]

theorem midRow_idem (cfg : Config) (h : PiAliasWF cfg) (r : Row) :
    midRow cfg (midRow cfg r) = midRow cfg r := by
  rw [midRow_eval cfg r, midRow_eval]
  simp only [midPi_idem cfg h, midInst_idem cfg h, midSuCharge_stable,
    midBillable_stable cfg h, midCredit_stable cfg h]

theorem midRow_projectId (cfg : Config) (r : Row) :
    (midRow cfg r).projectId = r.projectId := by
  rw [midRow_eval]

theorem midRow_clusterName (cfg : Config) (r : Row) :
    (midRow cfg r).clusterName = r.clusterName := by
  rw [midRow_eval]

theorem midRow_projectName (cfg : Config) (r : Row) :
    (midRow cfg r).projectName = r.projectName := by
  rw [midRow_eval]

theorem midRow_prepaid_commute (cfg : Config) (r : Row) (v : Int) :
    midRow cfg { r with prepaid := v } = { midRow cfg r with prepaid := v } := by
  rw [midRow_eval, midRow_eval]

theorem overwriteRow_prepaid_commute (info : AllocationInfo) (r : Row) (v : Int) :
    overwriteRow info { r with prepaid := v } =
      { overwriteRow info r with prepaid := v } := rfl

theorem midRow_overwrite (cfg : Config) (info : AllocationInfo) (x : Row) :
    midRow cfg (overwriteRow info (midRow cfg (overwriteRow info x))) =
      midRow cfg (overwriteRow info x) := by
  rw [midRow_eval cfg (overwriteRow info x)]
  rw [show overwriteRow info x = { x with
      projectName := info.projectName
      piName := some info.pi
      institutionCode := some info.institutionCode } from rfl]
  rw [show ∀ (y : Row), overwriteRow info y = { y with
      projectName := info.projectName
      piName := some info.pi
      institutionCode := some info.institutionCode } from fun y => rfl]
  rw [midRow_eval]
  simp only [midSuCharge_stable]

theorem key_row (cfg : Config) (h : PiAliasWF cfg)
    (alloc : List ((String × String) × AllocationInfo)) (r3 : Row) (v : Int) :
    midRow cfg (applyAllocRow alloc
        { midRow cfg (applyAllocRow alloc r3) with prepaid := v }) =
      { midRow cfg (applyAllocRow alloc r3) with prepaid := v } := by
  cases hm : matchedInfo alloc r3.projectId r3.clusterName with
  | none =>
    have h1 : applyAllocRow alloc r3 = r3 := by
      rw [applyAllocRow_eq, hm]
    rw [h1]
    have hkey1 : ({ midRow cfg r3 with prepaid := v } : Row).projectId =
        r3.projectId := midRow_projectId cfg r3
    have hkey2 : ({ midRow cfg r3 with prepaid := v } : Row).clusterName =
        r3.clusterName := midRow_clusterName cfg r3
    have h2 : applyAllocRow alloc { midRow cfg r3 with prepaid := v } =
        { midRow cfg r3 with prepaid := v } := by
      rw [applyAllocRow_eq, hkey1, hkey2, hm]
    rw [h2, midRow_prepaid_commute, midRow_idem cfg h]
  | some info =>
    have h1 : applyAllocRow alloc r3 = overwriteRow info r3 := by
      rw [applyAllocRow_eq, hm]
    rw [h1]
    have hkey1 :
        ({ midRow cfg (overwriteRow info r3) with prepaid := v } : Row).projectId =
        r3.projectId := midRow_projectId cfg (overwriteRow info r3)
    have hkey2 :
        ({ midRow cfg (overwriteRow info r3) with prepaid := v } : Row).clusterName =
        r3.clusterName := midRow_clusterName cfg (overwriteRow info r3)
    have h2 : applyAllocRow alloc
        { midRow cfg (overwriteRow info r3) with prepaid := v } =
        overwriteRow info { midRow cfg (overwriteRow info r3) with prepaid := v } := by
      rw [applyAllocRow_eq, hkey1, hkey2, hm]
    rw [h2, overwriteRow_prepaid_commute, midRow_prepaid_commute,
      midRow_overwrite cfg info r3]

theorem prepayRow_prepaid_irrel (cfg : Config) (bal : List (String × Int))
    (r : Row) (v : Int) :
    prepayRow cfg bal { r with prepaid := v } = prepayRow cfg bal r := rfl

theorem prepayRow_snd_shape (cfg : Config) (bal : List (String × Int)) (r : Row) :
    ∃ v, (prepayRow cfg bal r).2 = { r with prepaid := v } := by
  cases hl : cfg.prepayProjects.lookup r.projectName with
  | none => exact ⟨0, by simp [prepayRow, hl]⟩
  | some contract =>
    cases hb : bal.lookup contract with
    | none => exact ⟨0, by simp [prepayRow, hl, hb]⟩
    | some avail =>
      exact ⟨min (r.cost - r.credit - r.subsidy) avail, by simp [prepayRow, hl, hb]⟩

theorem prepayFold_idem (cfg : Config) (bal : List (String × Int)) (l : List Row) :
    prepayFold cfg bal ((prepayFold cfg bal l).2) = prepayFold cfg bal l := by
  induction l generalizing bal with
  | nil => rfl
  | cons r rs ih =>
    obtain ⟨v, hv⟩ := prepayRow_snd_shape cfg bal r
    have hrr : prepayRow cfg bal ((prepayRow cfg bal r).2) = prepayRow cfg bal r := by
      rw [hv, prepayRow_prepaid_irrel]
    simp only [prepayFold]
    rw [hrr, ih]

theorem prepayFold_mem (cfg : Config) (bal : List (String × Int)) (l : List Row)
    (r' : Row) (hr : r' ∈ (prepayFold cfg bal l).2) :
    ∃ r ∈ l, ∃ v, r' = { r with prepaid := v } := by
  induction l generalizing bal with
  | nil => simp [prepayFold] at hr
  | cons r rs ih =>
    simp only [prepayFold] at hr
    rcases List.mem_cons.mp hr with h | h
    · obtain ⟨v, hv⟩ := prepayRow_snd_shape cfg bal r
      exact ⟨r, List.mem_cons_self r rs, v, by rw [h, hv]⟩
    · obtain ⟨r0, hr0, v, hv⟩ := ih _ h
      exact ⟨r0, List.mem_cons_of_mem r hr0, v, hv⟩

/-- The (project ID, project name, cluster name) projection of a row: the
columns the coldfront validation and matching read. -/
def proj3 (r : Row) : String × String × String :=
  (r.projectId, r.projectName, r.clusterName)

theorem proj3_prepaid (r : Row) (v : Int) :
    proj3 { r with prepaid := v } = proj3 r := rfl

theorem proj3_midRow (cfg : Config) (r : Row) : proj3 (midRow cfg r) = proj3 r := by
  rw [midRow_eval]
  rfl

theorem prepayFold_map_proj3 (cfg : Config) (bal : List (String × Int))
    (l : List Row) : ((prepayFold cfg bal l).2).map proj3 = l.map proj3 := by
  induction l generalizing bal with
  | nil => rfl
  | cons r rs ih =>
    obtain ⟨v, hv⟩ := prepayRow_snd_shape cfg bal r
    simp only [prepayFold, List.map_cons]
    rw [hv, proj3_prepaid, ih]

/-- The action of the allocation mapping on the projection of a row. -/
def applyAllocProj (alloc : List ((String × String) × AllocationInfo))
    (p : String × String × String) : String × String × String :=
  match matchedInfo alloc p.1 p.2.2 with
  | some info => (p.1, info.projectName, p.2.2)
  | none => p

theorem proj3_applyAllocRow (alloc : List ((String × String) × AllocationInfo))
    (r : Row) : proj3 (applyAllocRow alloc r) = applyAllocProj alloc (proj3 r) := by
  rw [applyAllocRow_eq]
  show _ =
    match matchedInfo alloc r.projectId r.clusterName with
    | some info => (r.projectId, info.projectName, r.clusterName)
    | none => proj3 r
  cases hm : matchedInfo alloc r.projectId r.clusterName with
  | some info => rfl
  | none => rfl

theorem applyAllocProj_idem (alloc : List ((String × String) × AllocationInfo))
    (p : String × String × String) :
    applyAllocProj alloc (applyAllocProj alloc p) = applyAllocProj alloc p := by
  cases hm : matchedInfo alloc p.1 p.2.2 with
  | none =>
    have hid : applyAllocProj alloc p = p := by
      unfold applyAllocProj
      rw [hm]
    rw [hid, hid]
  | some info =>
    have hsome : applyAllocProj alloc p = (p.1, info.projectName, p.2.2) := by
      unfold applyAllocProj
      rw [hm]
    rw [hsome]
    unfold applyAllocProj
    rw [show matchedInfo alloc (p.1, info.projectName, p.2.2).1
        (p.1, info.projectName, p.2.2).2.2 = some info from hm]

theorem applyAllocRow_clusterName (alloc : List ((String × String) × AllocationInfo))
    (r : Row) : (applyAllocRow alloc r).clusterName = r.clusterName := by
  rw [applyAllocRow_eq]
  cases matchedInfo alloc r.projectId r.clusterName with
  | some info => rfl
  | none => rfl

theorem findBillableProject_congr (nb : List NonbillableProject) {r r' : Row}
    (h : proj3 r = proj3 r') :
    findBillableProject nb r = findBillableProject nb r' := by
  rw [findBillableProject_fields, findBillableProject_fields]
  have h1 : r.projectName = r'.projectName := congrArg (fun p => p.2.1) h
  have h2 : r.clusterName = r'.clusterName := congrArg (fun p => p.2.2) h
  rw [h1, h2]

theorem billableNames_congr (nb : List NonbillableProject) :
    ∀ {l l' : List Row}, l.map proj3 = l'.map proj3 →
      (l.filter (fun r => findBillableProject nb r)).map (fun r => r.projectName) =
      (l'.filter (fun r => findBillableProject nb r)).map (fun r => r.projectName) := by
  intro l
  induction l with
  | nil =>
    intro l' h
    have hl : l' = [] := by
      cases l' with
      | nil => rfl
      | cons a as => simp at h
    rw [hl]
  | cons r rs ih =>
    intro l' h
    cases l' with
    | nil => simp at h
    | cons r' rs' =>
      simp only [List.map_cons, List.cons.injEq] at h
      obtain ⟨hh, ht⟩ := h
      have hf := findBillableProject_congr nb hh
      have hn : r.projectName = r'.projectName := congrArg (fun p => p.2.1) hh
      by_cases hb : findBillableProject nb r = true
      · rw [List.filter_cons_of_pos hb, List.filter_cons_of_pos (by rw [← hf]; exact hb)]
        simp only [List.map_cons]
        rw [hn, ih ht]
      · have hb2 : ¬ findBillableProject nb r' = true := by rw [← hf]; exact hb
        rw [List.filter_cons_of_neg hb, List.filter_cons_of_neg hb2]
        exact ih ht

theorem getProjectNameList_congr (nb : List NonbillableProject) {l l' : List Row}
    (h : l.map proj3 = l'.map proj3) :
    getProjectNameList nb l = getProjectNameList nb l' := by
  unfold getProjectNameList
  rw [billableNames_congr nb h]

theorem validateAllocationData_congr (nb : List NonbillableProject)
    (alloc : List ((String × String) × AllocationInfo)) {l l' : List Row}
    (h : l.map proj3 = l'.map proj3) :
    validateAllocationData nb alloc l = validateAllocationData nb alloc l' := by
  unfold validateAllocationData
  rw [getProjectNameList_congr nb h]

theorem pipeline_def (cfg : Config) (d : List Row) :
    pipeline cfg d =
      match validateClusterNameStage cfg d with
      | .error err => .error err
      | .ok d1 =>
        match coldfrontStage cfg d1 with
        | .error err => .error err
        | .ok d2 =>
          prepaymentStage cfg (buSubsidyStage cfg (newPiCreditStage cfg
            (validateBillableStage cfg (lenovoStage cfg (addInstitutionStage cfg
              (validatePiAliasStage cfg d2)))))) := by
  unfold pipeline
  cases validateClusterNameStage cfg d with
  | error err => rfl
  | ok d1 =>
    show Except.bind (coldfrontStage cfg d1) _ =
      match coldfrontStage cfg d1 with
      | .error err => .error err
      | .ok d2 =>
        prepaymentStage cfg (buSubsidyStage cfg (newPiCreditStage cfg
          (validateBillableStage cfg (lenovoStage cfg (addInstitutionStage cfg
            (validatePiAliasStage cfg d2))))))
    cases coldfrontStage cfg d1 with
    | error err => rfl
    | ok d2 => rfl

theorem except_bind_ok {ε α β : Type} (x : Except ε α) (f : α → Except ε β)
    (b : β) (h : Except.bind x f = .ok b) : ∃ a, x = .ok a ∧ f a = .ok b := by
  cases x with
  | error err => simp [Except.bind] at h
  | ok a => exact ⟨a, rfl, h⟩

/-- C7: the preliminary pipeline is idempotent — for every well-formed
configuration (normalized alias tables) and every dataset on which the run
succeeds, re-running the whole nine-stage pipeline on its own output with
the same configuration succeeds and returns that output unchanged. -/
theorem pipeline_idempotent (cfg : Config) (d e : List Row)
    (hwf : ConfigWF cfg) (hrun : pipeline cfg d = .ok e) :
    pipeline cfg e = .ok e := by
  obtain ⟨hcl, hpa⟩ := hwf
  unfold pipeline at hrun
  obtain ⟨d1, h1, hrun⟩ := except_bind_ok _ _ _ hrun
  obtain ⟨d2, h2, hrun⟩ := except_bind_ok _ _ _ hrun
  simp only [] at hrun
  rw [mid_stages_eq_map] at hrun
  unfold prepaymentStage at hrun
  by_cases hcons : prepayDebitsConsistent cfg = true
  case neg =>
    rw [if_neg hcons] at hrun
    exact absurd hrun (by simp)
  case pos =>
  rw [if_pos hcons] at hrun
  injection hrun with he'
  have he : e = (prepayFold cfg cfg.prepayCredits (d2.map (midRow cfg))).2 := he'.symm
  -- invert stage 1 of the first run
  unfold validateClusterNameStage at h1
  by_cases hall : d.all (fun r => (normalizeClusterName cfg r.clusterName).isSome) = true
  case neg =>
    rw [if_neg hall] at h1
    exact absurd h1 (by simp)
  case pos =>
  rw [if_pos hall] at h1
  injection h1 with hd1
  -- invert stage 2 of the first run
  unfold coldfrontStage at h2
  obtain ⟨hd2, hval⟩ := (coldfrontProcess_ok_iff _ _ _ _ _).mp h2
  rw [applyAllocationData_eq_map] at hd2 hval
  subst hd2
  subst hd1
  -- decompose the rows of the final dataset
  have hdecomp : ∀ r ∈ e, ∃ r3, r3 ∈ d.map (clusterRow cfg) ∧ ∃ v : Int,
      r = { midRow cfg (applyAllocRow
        (getAllocationData cfg.clusterAliasMap cfg.allocationApi) r3) with
          prepaid := v } := by
    intro r hr
    rw [he] at hr
    obtain ⟨r0, hr0, v, hv⟩ := prepayFold_mem _ _ _ _ hr
    rw [List.map_map] at hr0
    obtain ⟨r3, hr3, hc⟩ := List.mem_map.mp hr0
    refine ⟨r3, hr3, v, ?_⟩
    rw [hv, ← hc]
    rfl
  -- every final cluster name is canonical
  have hnorm : ∀ r ∈ e, normalizeClusterName cfg r.clusterName = some r.clusterName := by
    intro r hr
    obtain ⟨r3, hr3, v, rfl⟩ := hdecomp r hr
    have hcn : ({ midRow cfg (applyAllocRow
        (getAllocationData cfg.clusterAliasMap cfg.allocationApi) r3) with
          prepaid := v } : Row).clusterName = r3.clusterName := by
      show (midRow cfg (applyAllocRow _ r3)).clusterName = r3.clusterName
      rw [midRow_clusterName, applyAllocRow_clusterName]
    rw [hcn]
    obtain ⟨r4, hr4, rfl⟩ := List.mem_map.mp hr3
    have hall4 := (List.all_eq_true.mp hall) r4 hr4
    obtain ⟨c, hc⟩ := Option.isSome_iff_exists.mp hall4
    have hcrn : (clusterRow cfg r4).clusterName = c := by
      show (normalizeClusterName cfg r4.clusterName).getD r4.clusterName = c
      rw [hc]
      rfl
    rw [hcrn]
    exact normalizeClusterName_idem cfg hcl r4.clusterName c hc
  -- stage 1 of the second run returns the dataset unchanged
  have hs1 : validateClusterNameStage cfg e = .ok e := by
    have hall2 : e.all (fun r => (normalizeClusterName cfg r.clusterName).isSome) = true := by
      refine List.all_eq_true.mpr (fun r hr => ?_)
      rw [hnorm r hr]
      rfl
    have hmap : e.map (clusterRow cfg) = e := by
      have hfix : ∀ r ∈ e, clusterRow cfg r = r := by
        intro r hr
        show ({ r with clusterName :=
          (normalizeClusterName cfg r.clusterName).getD r.clusterName } : Row) = r
        rw [hnorm r hr]
        rfl
      exact (List.map_congr_left hfix).trans (List.map_id e)
    unfold validateClusterNameStage
    rw [if_pos hall2, hmap]
  -- the coldfront validation of the second run sees the same projections
  have hX : ((d.map (clusterRow cfg)).map (applyAllocRow
        (getAllocationData cfg.clusterAliasMap cfg.allocationApi))).map proj3 =
      (d.map (clusterRow cfg)).map (fun r =>
        applyAllocProj (getAllocationData cfg.clusterAliasMap cfg.allocationApi)
          (proj3 r)) := by
    rw [List.map_map]
    exact List.map_congr_left (fun r _ => proj3_applyAllocRow _ r)
  have he3 : e.map proj3 =
      ((d.map (clusterRow cfg)).map (applyAllocRow
        (getAllocationData cfg.clusterAliasMap cfg.allocationApi))).map proj3 := by
    rw [he, prepayFold_map_proj3, List.map_map]
    exact List.map_congr_left (fun r _ => proj3_midRow cfg r)
  have hproj : (e.map (applyAllocRow
        (getAllocationData cfg.clusterAliasMap cfg.allocationApi))).map proj3 =
      ((d.map (clusterRow cfg)).map (applyAllocRow
        (getAllocationData cfg.clusterAliasMap cfg.allocationApi))).map proj3 := by
    calc (e.map (applyAllocRow
          (getAllocationData cfg.clusterAliasMap cfg.allocationApi))).map proj3
        = (e.map proj3).map
            (applyAllocProj (getAllocationData cfg.clusterAliasMap cfg.allocationApi)) := by
          rw [List.map_map, List.map_map]
          exact List.map_congr_left (fun r _ => proj3_applyAllocRow _ r)
      _ = (((d.map (clusterRow cfg)).map (applyAllocRow
            (getAllocationData cfg.clusterAliasMap cfg.allocationApi))).map proj3).map
            (applyAllocProj (getAllocationData cfg.clusterAliasMap cfg.allocationApi)) := by
          rw [he3]
      _ = ((d.map (clusterRow cfg)).map (fun r =>
            applyAllocProj (getAllocationData cfg.clusterAliasMap cfg.allocationApi)
              (proj3 r))).map
            (applyAllocProj (getAllocationData cfg.clusterAliasMap cfg.allocationApi)) := by
          rw [hX]
      _ = (d.map (clusterRow cfg)).map (fun r =>
            applyAllocProj (getAllocationData cfg.clusterAliasMap cfg.allocationApi)
              (applyAllocProj (getAllocationData cfg.clusterAliasMap cfg.allocationApi)
                (proj3 r))) := by
          rw [List.map_map]
          exact List.map_congr_left (fun r _ => rfl)
      _ = (d.map (clusterRow cfg)).map (fun r =>
            applyAllocProj (getAllocationData cfg.clusterAliasMap cfg.allocationApi)
              (proj3 r)) :=
          List.map_congr_left (fun r _ => applyAllocProj_idem _ _)
      _ = ((d.map (clusterRow cfg)).map (applyAllocRow
            (getAllocationData cfg.clusterAliasMap cfg.allocationApi))).map proj3 :=
          hX.symm
  -- stage 2 of the second run succeeds with the same enrichment
  have hs2 : coldfrontStage cfg e = .ok (e.map (applyAllocRow
      (getAllocationData cfg.clusterAliasMap cfg.allocationApi))) := by
    unfold coldfrontStage
    refine (coldfrontProcess_ok_iff _ _ _ _ _).mpr ⟨?_, ?_⟩
    · rw [applyAllocationData_eq_map]
    · rw [applyAllocationData_eq_map, validateAllocationData_congr _ _ hproj]
      exact hval
  -- the middle stages of the second run restore the dataset
  have hs3 : (e.map (applyAllocRow
      (getAllocationData cfg.clusterAliasMap cfg.allocationApi))).map (midRow cfg) = e := by
    rw [List.map_map]
    have hfix : ∀ r ∈ e,
        (midRow cfg ∘ applyAllocRow
          (getAllocationData cfg.clusterAliasMap cfg.allocationApi)) r = r := by
      intro r hr
      obtain ⟨r3, hr3, v, rfl⟩ := hdecomp r hr
      exact key_row cfg hpa _ r3 v
    exact (List.map_congr_left hfix).trans (List.map_id e)
  -- assemble the second run
  rw [pipeline_def]
  simp only [hs1, hs2, mid_stages_eq_map, hs3]
  unfold prepaymentStage
  rw [if_pos hcons, he]
  exact congrArg (fun l => Except.ok l)
    (congrArg Prod.snd (prepayFold_idem cfg cfg.prepayCredits _))

/-- The dataset the pipeline produces from `witnessRow` under
`witnessConfig`: enriched from the directory, billable, with no PI flag and
no credit, subsidy or prepay amounts. -/
def witnessOut : Row :=
  { projectName := "P1-name"
    projectId := "P1"
    piName := some "PI1"
    clusterName := "stack"
    institutionCode := some "IC1"
    cost := 0
    rate := ""
    suType := none
    suCount := 0
    suCharge := 0
    isBillable := true
    missingPi := false
    credit := 0
    subsidy := 0
    prepaid := 0 }

theorem pipeline_idempotent_witness :
    ConfigWF witnessConfig ∧
    pipeline witnessConfig [witnessRow] = .ok [witnessOut] ∧
    pipeline witnessConfig [witnessOut] = .ok [witnessOut] :=
  ⟨⟨fun p hp => absurd hp (by simp [witnessConfig]),
    fun p hp => absurd hp (by simp [witnessConfig])⟩,
   rfl,
   pipeline_idempotent witnessConfig [witnessRow] [witnessOut]
     ⟨fun p hp => absurd hp (by simp [witnessConfig]),
      fun p hp => absurd hp (by simp [witnessConfig])⟩
     rfl⟩
